import Mathlib

/-
Verification of the address codec and SNMP table decoder of lab5-netman.

Embedded code:
  * src/NMtcpdump.py: eui64_to_mac (lines 5-12) and the selection/naming
    loop of extract_mac_addresses (lines 15-31).
  * src/NMsnmp.py: the per-row OID decoding of fetch_ipv4_addresses
    (lines 72-76), fetch_ipv6_addresses (lines 89-106), and the
    status/name decoding of fetch_interface_status (lines 127-138)
    together with the INTERFACE_STATUS table (lines 28-36).

Modelling conventions:
  * IPv6 addresses reaching eui64_to_mac are taken as their integer value
    (the result of Python int(IPAddress(s))); the claims under study
    quantify over address values, not over textual spellings.
  * Python strings are Lean Strings; where the core String functions do
    not compute in the kernel (ordering, lowercasing, substring test) the
    operation is defined over the underlying character list with the same
    code-point semantics Python uses.
  * Code that can raise an exception is modelled in Except; code that
    silently skips a row yields none inside Except.ok.
-/

/-- Code-point lexicographic comparison of character lists: the order Python
uses on strings, e.g. in sorted(...) at NMtcpdump.py line 22. -/
def lexLe : List Char → List Char → Bool
  | [], _ => true
  | _ :: _, [] => false
  | a :: as, b :: bs =>
      if a.toNat < b.toNat then true
      else if b.toNat < a.toNat then false
      else lexLe as bs

/-- Python string comparison a <= b on the textual representation. -/
def pyStrLe (a b : String) : Prop := lexLe a.data b.data = true

instance pyStrLeDec : DecidableRel pyStrLe := fun a b => by
  unfold pyStrLe
  infer_instance

/-- Test whether pat is a leading block of l (helper for the substring test). -/
def isPrefixL : List Char → List Char → Bool
  | [], _ => true
  | _ :: _, [] => false
  | a :: as, b :: bs => (a == b) && isPrefixL as bs

/-- Occurrence of pat somewhere in l: Python's substring operator pat in s. -/
def containsSub (pat : List Char) : List Char → Bool
  | [] => isPrefixL pat []
  | c :: rest => isPrefixL pat (c :: rest) || containsSub pat rest

/-- Python membership test pat in s on strings (NMtcpdump.py line 22). -/
def strContains (s pat : String) : Bool := containsSub pat.data s.data

/-- ASCII lowercasing of one character; agrees with Python str.lower on the
ASCII interface names this code handles. -/
def lowerChar (c : Char) : Char :=
  if 65 ≤ c.toNat ∧ c.toNat ≤ 90 then Char.ofNat (c.toNat + 32) else c

/-- Python s.lower() (NMsnmp.py line 137). -/
def pyLower (s : String) : String := String.mk (s.data.map lowerChar)

/-- Hex digit character, uppercase (0-9, A-F). -/
def hexU (n : Nat) : Char :=
  if n < 10 then Char.ofNat (48 + n) else Char.ofNat (55 + n)

/-- netaddr's rendering of one EUI word as two uppercase hex digits
(dialect word_fmt %.2X); every word handled here is an octet below 256. -/
def hexUpper2 (n : Nat) : String := String.mk [hexU (n / 16 % 16), hexU (n % 16)]

/-- str(EUI(..)): words rendered %.2X and joined with a hyphen, the netaddr
format for both EUI-48 and EUI-64 values (NMtcpdump.py lines 11-12). -/
def euiRender (l : List Nat) : String := String.intercalate "-" (l.map hexUpper2)

/-- Big-endian octets of a 64-bit value: the octet view netaddr's
EUI(iid, version=64) gives of the interface identifier (NMtcpdump.py line 8). -/
def natToOctets8 (n : Nat) : List Nat :=
  [n / 72057594037927936 % 256, n / 281474976710656 % 256,
   n / 1099511627776 % 256, n / 4294967296 % 256,
   n / 16777216 % 256, n / 65536 % 256, n / 256 % 256, n % 256]

/-- eui64[0] = eui64[0] ^ 0x02 (NMtcpdump.py line 9). -/
def flipULBit : List Nat → List Nat
  | [] => []
  | a :: rest => (a ^^^ 2) :: rest

/-- str(eui64).replace("FF-FE-", "") (NMtcpdump.py line 11), modelled at the
octet level. The rendered string is two uppercase hex digits per octet
joined by hyphens, so a character-level occurrence of the pattern FF-FE-
can only start at an octet boundary (its two hyphens force the start
position to be 0 mod 3), and it needs a further octet after the FE to
supply the trailing hyphen. Python's replace removes non-overlapping
occurrences left to right, resuming after each removed occurrence, which
is exactly this recursion. -/
def stripFFFE : List Nat → List Nat
  | a :: b :: c :: rest =>
      if a = 255 ∧ b = 254 then stripFFFE (c :: rest)
      else a :: stripFFFE (b :: c :: rest)
  | l => l

/-- eui64_to_mac (NMtcpdump.py lines 5-12): keep the low 64 bits of the
address, view them as 8 octets, flip bit 0x02 of the first octet, drop the
FF-FE- occurrences from the hyphenated rendering, and re-parse with
netaddr EUI, which accepts 6 words (EUI-48, the MAC case) or 8 words
(EUI-64, when no FF-FE- occurred) and raises AddrFormatError (none here)
on any other word count. The returned value is str(mac). -/
def eui64_to_mac (ipv6 : Nat) : Option String :=
  let t := stripFFFE (flipULBit (natToOctets8 (ipv6 % 18446744073709551616)))
  if t.length = 6 ∨ t.length = 8 then some (euiRender t) else none

/-- Modified EUI-64 interface identifier constructed from a 6-octet MAC,
stated from the spec's construction rule (flip bit 0x02 of the first
octet, insert FF FE as the two middle octets): the comparison definition
for the round-trip claim. -/
def macToEui64IID (m0 m1 m2 m3 m4 m5 : Nat) : Nat :=
  (m0 ^^^ 2) * 72057594037927936 + m1 * 281474976710656 + m2 * 1099511627776 +
    255 * 4294967296 + 254 * 16777216 + m3 * 65536 + m4 * 256 + m5

/-- Absence of a replaceable FF-FE- occurrence: no octet pair (255, 254)
that still has an octet after it (the trailing hyphen of the pattern). -/
def noMarker : List Nat → Bool
  | a :: b :: c :: rest => (!(a == 255 && b == 254)) && noMarker (b :: c :: rest)
  | _ => true

/-- Python sorted(...) on address strings (NMtcpdump.py line 22): the
pyStrLe-sorted permutation of the input; by antisymmetry of the order this
list is unique, so the sorting algorithm used does not matter. -/
def sortStrings (l : List String) : List String := List.insertionSort pyStrLe l

/-- Assignment loop of extract_mac_addresses (NMtcpdump.py lines 27-29) over
the zipped (name, address) pairs. macOf stands for eui64_to_mac composed
with the textual-address parse netaddr.IPAddress performs; the claims
settled on this function hold for every such conversion. A none from
macOf models eui64_to_mac raising, which aborts the whole call before
anything is returned, hence the Option result. -/
def assignLoop (macOf : String → Option String) :
    List (String × String) →
      Option (List (String × String) × List (String × String))
  | [] => some ([], [])
  | (name, addr) :: rest =>
      match macOf addr, assignLoop macOf rest with
      | some mac, some (ms, ys) => some ((name, mac) :: ms, (name, addr) :: ys)
      | _, _ => none

/-- selectAndNameAddresses: filter the observed source addresses by
substring, sort them, zip against the ordered name list and build the two
mappings (NMtcpdump.py lines 22-31, with the filter substring and the name
list as parameters). -/
def selectAndNameAddresses (macOf : String → Option String) (filt : String)
    (names : List String) (srcAddrs : List String) :
    Option (List (String × String) × List (String × String)) :=
  assignLoop macOf (names.zip (sortStrings (srcAddrs.filter (fun a => strContains a filt))))

/-- extract_mac_addresses (NMtcpdump.py lines 15-31) after the pcap read:
the fixed filter substring and name list of the source. -/
def extract_mac_addresses (macOf : String → Option String)
    (srcAddrs : List String) :
    Option (List (String × String) × List (String × String)) :=
  selectAndNameAddresses macOf "2001:db8:1:" ["R2-F0/0", "R3-F0/0"] srcAddrs

/-- Python int() on an OID component: succeeds exactly on nonempty digit
strings (the sign/whitespace forms int() also accepts cannot occur inside
a dotted object identifier) and raises ValueError otherwise. -/
def pyInt (s : String) : Option Nat :=
  if s.data ≠ [] ∧ s.data.all Char.isDigit then
    some (s.data.foldl (fun a c => a * 10 + (c.toNat - 48)) 0)
  else none

/-- format(n, '02x') (NMsnmp.py line 102): lowercase hex, zero-padded to at
least two digits. -/
def pyHex02 (n : Nat) : String :=
  if (String.mk (Nat.toDigits 16 n)).length = 1 then
    "0" ++ String.mk (Nat.toDigits 16 n)
  else String.mk (Nat.toDigits 16 n)

/-- Pairwise concatenation ''.join(addr_bytes[i:i+2]) for i in range(0, 16, 2)
(NMsnmp.py line 103). -/
def pairJoin : List String → List String
  | a :: b :: restp => (a ++ b) :: pairJoin restp
  | l => l

/-- Colon-joined hex grouping of the address octets (NMsnmp.py lines 102-103). -/
def ipv6Colon (ns : List Nat) : String :=
  String.intercalate ":" (pairJoin (ns.map pyHex02))

/-- Removal of the textual root label: oid_str[4:] when oid_str starts with
'iso.' (NMsnmp.py lines 93-94), seen after splitting on dots. -/
def stripIso (parts : List String) : List String :=
  match parts with
  | a :: rest => if a = "iso" then rest else parts
  | [] => parts

/-- The int() conversions of the address components, as the comprehension at
NMsnmp.py line 102 performs them: the whole row fails as soon as one
component is non-numeric. -/
def mapIntAll : List String → Option (List Nat)
  | [] => some []
  | s :: rest =>
      match pyInt s, mapIntAll rest with
      | some n, some ns => some (n :: ns)
      | _, _ => none

/-- Per-row IPv6 decode of fetch_ipv6_addresses (NMsnmp.py lines 91-104, the
body inside the try): strip the root label, require at least
base(9) + ifIndex(1) + addressType(1) + address(16) = 27 components, slice
parts[11:27], check the slice length, convert and format. Except.error
models the ValueError a non-numeric component raises out of the decode
(the enclosing loop at lines 105-106 is the caller's skip policy, outside
this operation); Except.ok none is the silent skip of a short row. -/
def decodeIpv6Binding (parts : List String) : Except Unit (Option String) :=
  if 27 ≤ (stripIso parts).length then
    if (((stripIso parts).drop 11).take 16).length = 16 then
      match mapIntAll (((stripIso parts).drop 11).take 16) with
      | some ns => Except.ok (some (ipv6Colon ns ++ "/64"))
      | none => Except.error ()
    else Except.ok none
  else Except.ok none

/-- Per-row IPv4 decode of fetch_ipv4_addresses (NMsnmp.py lines 73-76):
join the last four components with dots and append /24 when at least four
components are present, otherwise do nothing. No statement in these lines
can raise, so the error branch of the result type is never produced. -/
def decodeIpv4Binding (parts : List String) : Except Unit (Option String) :=
  Except.ok
    (if 4 ≤ parts.length then
      some (String.intercalate "." (parts.drop (parts.length - 4)) ++ "/24")
    else none)

/-- INTERFACE_STATUS table (NMsnmp.py lines 28-36). -/
def INTERFACE_STATUS : List (String × String) :=
  [("1", "up"), ("2", "down"), ("3", "testing"), ("4", "unknown"),
   ("5", "dormant"), ("6", "notPresent"), ("7", "lowerLayerDown")]

/-- Python dict.get(k, d) over an association list with distinct keys. -/
def lookupD (t : List (String × String)) (k d : String) : String :=
  match t with
  | [] => d
  | p :: rest => if p.1 = k then p.2 else lookupD rest k d

/-- Per-row status decode of fetch_interface_status (NMsnmp.py lines
129-138): label from INTERFACE_STATUS defaulting to unknown, name from
the walked name table defaulting to if<index>, and the case-insensitive
Null0 exclusion; none models the skipped row. -/
def decodeInterfaceStatus (knownNames : List (String × String))
    (ifIndex statusCode : String) : Option (String × String) :=
  if pyLower (lookupD knownNames ifIndex ("if" ++ ifIndex)) ≠ "null0" then
    some (lookupD knownNames ifIndex ("if" ++ ifIndex),
          lookupD INTERFACE_STATUS statusCode "unknown")
  else none

/-- Python dict assignment m[k] = v on an association list: overwrite in
place when the key is present, append otherwise. -/
def assocSet (m : List (String × String)) (k v : String) :
    List (String × String) :=
  if m.any (fun p => p.1 == k) then
    m.map (fun p => if p.1 = k then (k, v) else p)
  else m ++ [(k, v)]

/-- interface_data built by the status loop of fetch_interface_status
(NMsnmp.py lines 129-138) over the walked (ifIndex, statusCode) rows. -/
def buildInterfaceData (knownNames : List (String × String))
    (rows : List (String × String)) : List (String × String) :=
  rows.foldl
    (fun m r =>
      match decodeInterfaceStatus knownNames r.1 r.2 with
      | some p => assocSet m p.1 p.2
      | none => m)
    []

theorem lexLe_total : ∀ l1 l2 : List Char, lexLe l1 l2 = true ∨ lexLe l2 l1 = true
  | [], _ => Or.inl rfl
  | _ :: _, [] => Or.inr rfl
  | a :: as, b :: bs => by
      rcases Nat.lt_trichotomy a.toNat b.toNat with h | h | h
      · left
        simp [lexLe, h]
      · have h1 : ¬ a.toNat < b.toNat := by omega
        have h2 : ¬ b.toNat < a.toNat := by omega
        rcases lexLe_total as bs with ih | ih
        · left
          simp [lexLe, h1, h2, ih]
        · right
          simp [lexLe, h1, h2, ih]
      · right
        simp [lexLe, h]

theorem lexLe_trans : ∀ l1 l2 l3 : List Char,
    lexLe l1 l2 = true → lexLe l2 l3 = true → lexLe l1 l3 = true
  | [], _, _, _, _ => rfl
  | _ :: _, [], _, h1, _ => by simp [lexLe] at h1
  | _ :: _, _ :: _, [], _, h2 => by simp [lexLe] at h2
  | a :: as, b :: bs, c :: cs, h1, h2 => by
      simp only [lexLe] at h1 h2 ⊢
      rcases Nat.lt_trichotomy a.toNat b.toNat with hab | hab | hab
      · rcases Nat.lt_trichotomy b.toNat c.toNat with hbc | hbc | hbc
        · simp [show a.toNat < c.toNat by omega]
        · simp [show a.toNat < c.toNat by omega]
        · rw [if_neg (by omega), if_pos hbc] at h2
          exact absurd h2 (by simp)
      · rcases Nat.lt_trichotomy b.toNat c.toNat with hbc | hbc | hbc
        · simp [show a.toNat < c.toNat by omega]
        · rw [if_neg (by omega), if_neg (by omega)] at h1 h2 ⊢
          exact lexLe_trans as bs cs h1 h2
        · rw [if_neg (by omega), if_pos hbc] at h2
          exact absurd h2 (by simp)
      · rw [if_neg (by omega), if_pos hab] at h1
        exact absurd h1 (by simp)

theorem lexLe_antisymm : ∀ l1 l2 : List Char,
    lexLe l1 l2 = true → lexLe l2 l1 = true → l1 = l2
  | [], [], _, _ => rfl
  | [], _ :: _, _, h2 => by simp [lexLe] at h2
  | _ :: _, [], h1, _ => by simp [lexLe] at h1
  | a :: as, b :: bs, h1, h2 => by
      simp only [lexLe] at h1 h2
      rcases Nat.lt_trichotomy a.toNat b.toNat with hab | hab | hab
      · rw [if_neg (by omega), if_pos hab] at h2
        exact absurd h2 (by simp)
      · rw [if_neg (by omega), if_neg (by omega)] at h1 h2
        have hchar : a = b := Char.ext (UInt32.ext hab)
        rw [hchar, lexLe_antisymm as bs h1 h2]
      · rw [if_neg (by omega), if_pos hab] at h1
        exact absurd h1 (by simp)

theorem sortStrings_sorted (l : List String) : List.Sorted pyStrLe (sortStrings l) := by
  haveI : IsTotal String pyStrLe := ⟨fun a b => lexLe_total a.data b.data⟩
  haveI : IsTrans String pyStrLe := ⟨fun a b c => lexLe_trans a.data b.data c.data⟩
  exact List.sorted_insertionSort pyStrLe l

theorem sortStrings_perm (l : List String) : (sortStrings l).Perm l :=
  List.perm_insertionSort pyStrLe l

theorem sortStrings_eq_of_perm {l1 l2 : List String} (h : l1.Perm l2) :
    sortStrings l1 = sortStrings l2 := by
  haveI : IsAntisymm String pyStrLe := ⟨fun a b h1 h2 => by
    have h3 := lexLe_antisymm a.data b.data h1 h2
    cases a
    cases b
    exact congrArg String.mk h3⟩
  exact List.eq_of_perm_of_sorted
    ((sortStrings_perm l1).trans (h.trans (sortStrings_perm l2).symm))
    (sortStrings_sorted l1) (sortStrings_sorted l2)

theorem xor2_lt {m : Nat} (h : m < 256) : m ^^^ 2 < 256 := by
  have h2 := Nat.xor_lt_two_pow (n := 8) (by omega : m < 2 ^ 8) (by omega : 2 < 2 ^ 8)
  omega

theorem natToOctets8_of_bytes (b0 b1 b2 b3 b4 b5 b6 b7 : Nat)
    (h0 : b0 < 256) (h1 : b1 < 256) (h2 : b2 < 256) (h3 : b3 < 256)
    (h4 : b4 < 256) (h5 : b5 < 256) (h6 : b6 < 256) (h7 : b7 < 256) :
    natToOctets8 (b0 * 72057594037927936 + b1 * 281474976710656 +
      b2 * 1099511627776 + b3 * 4294967296 + b4 * 16777216 + b5 * 65536 +
      b6 * 256 + b7) = [b0, b1, b2, b3, b4, b5, b6, b7] := by
  simp only [natToOctets8, List.cons.injEq, and_true]
  refine ⟨?_, ?_, ?_, ?_, ?_, ?_, ?_, ?_⟩ <;> omega

theorem stripFFFE_marker (m0 m1 m2 m3 m4 m5 : Nat)
    (e1 : ¬(m0 = 255 ∧ m1 = 254)) (e2 : ¬(m1 = 255 ∧ m2 = 254))
    (e3 : ¬(m3 = 255 ∧ m4 = 254)) :
    stripFFFE [m0, m1, m2, 255, 254, m3, m4, m5] = [m0, m1, m2, m3, m4, m5] := by
  rw [show stripFFFE [m0, m1, m2, 255, 254, m3, m4, m5] =
        if m0 = 255 ∧ m1 = 254 then stripFFFE [m2, 255, 254, m3, m4, m5]
        else m0 :: stripFFFE [m1, m2, 255, 254, m3, m4, m5] from rfl,
      if_neg e1,
      show stripFFFE [m1, m2, 255, 254, m3, m4, m5] =
        if m1 = 255 ∧ m2 = 254 then stripFFFE [255, 254, m3, m4, m5]
        else m1 :: stripFFFE [m2, 255, 254, m3, m4, m5] from rfl,
      if_neg e2,
      show stripFFFE [m2, 255, 254, m3, m4, m5] =
        if m2 = 255 ∧ (255 : Nat) = 254 then stripFFFE [254, m3, m4, m5]
        else m2 :: stripFFFE [255, 254, m3, m4, m5] from rfl,
      if_neg (by omega),
      show stripFFFE [255, 254, m3, m4, m5] = stripFFFE [m3, m4, m5] from
        by rw [show stripFFFE [255, 254, m3, m4, m5] =
            if (255 : Nat) = 255 ∧ (254 : Nat) = 254 then stripFFFE [m3, m4, m5]
            else 255 :: stripFFFE [254, m3, m4, m5] from rfl, if_pos ⟨rfl, rfl⟩],
      show stripFFFE [m3, m4, m5] =
        if m3 = 255 ∧ m4 = 254 then stripFFFE [m5]
        else m3 :: stripFFFE [m4, m5] from rfl,
      if_neg e3,
      show stripFFFE [m4, m5] = [m4, m5] from rfl]

theorem stripFFFE_id_of_noMarker :
    ∀ l : List Nat, noMarker l = true → stripFFFE l = l
  | [], _ => rfl
  | [_], _ => rfl
  | [_, _], _ => rfl
  | a :: b :: c :: rest, h => by
      simp only [noMarker, Bool.and_eq_true, Bool.not_eq_true'] at h
      have hcond : ¬(a = 255 ∧ b = 254) := by
        rintro ⟨rfl, rfl⟩
        simp at h
      rw [show stripFFFE (a :: b :: c :: rest) =
            if a = 255 ∧ b = 254 then stripFFFE (c :: rest)
            else a :: stripFFFE (b :: c :: rest) from rfl,
          if_neg hcond, stripFFFE_id_of_noMarker (b :: c :: rest) h.2]

theorem mapIntAll_none :
    ∀ l : List String, mapIntAll l = none → ∃ s ∈ l, pyInt s = none
  | [], h => by simp [mapIntAll] at h
  | s :: rest, h => by
      simp only [mapIntAll] at h
      cases hs : pyInt s with
      | none => exact ⟨s, by simp, hs⟩
      | some n =>
          rw [hs] at h
          cases hr : mapIntAll rest with
          | none =>
              obtain ⟨t, ht, hpt⟩ := mapIntAll_none rest hr
              exact ⟨t, by simp [ht], hpt⟩
          | some ns => rw [hr] at h; simp at h

theorem assignLoop_inv (macOf : String → Option String) :
    ∀ (pairs ms ys : List (String × String)),
      assignLoop macOf pairs = some (ms, ys) →
      ys = pairs ∧ ms.map Prod.fst = pairs.map Prod.fst
  | [], ms, ys, h => by
      simp only [assignLoop, Option.some.injEq, Prod.mk.injEq] at h
      simp [← h.1, ← h.2]
  | (name, addr) :: rest, ms, ys, h => by
      simp only [assignLoop] at h
      cases hm : macOf addr with
      | none => rw [hm] at h; simp at h
      | some mac =>
          rw [hm] at h
          cases hr : assignLoop macOf rest with
          | none => rw [hr] at h; simp at h
          | some p =>
              obtain ⟨msr, ysr⟩ := p
              rw [hr] at h
              simp only [Option.some.injEq, Prod.mk.injEq] at h
              obtain ⟨ih1, ih2⟩ := assignLoop_inv macOf rest msr ysr hr
              refine ⟨?_, ?_⟩
              · rw [← h.2, ih1]
              · rw [← h.1]
                simp [ih2]

theorem lookupD_not_mem :
    ∀ (t : List (String × String)) (k d : String),
      k ∉ t.map Prod.fst → lookupD t k d = d
  | [], _, _, _ => rfl
  | p :: rest, k, d, h => by
      simp only [List.map_cons, List.mem_cons, not_or] at h
      rw [show lookupD (p :: rest) k d =
            if p.1 = k then p.2 else lookupD rest k d from rfl,
          if_neg (show ¬ p.1 = k from fun he => h.1 he.symm)]
      exact lookupD_not_mem rest k d h.2

theorem assocSet_keys (m : List (String × String)) (k v : String) :
    ∀ k2 ∈ (assocSet m k v).map Prod.fst, k2 ∈ m.map Prod.fst ∨ k2 = k := by
  intro k2 hk2
  unfold assocSet at hk2
  by_cases hany : m.any (fun p => p.1 == k)
  · rw [if_pos hany, List.map_map] at hk2
    obtain ⟨p, hp, hpk⟩ := List.mem_map.mp hk2
    by_cases hpe : p.1 = k
    · right
      simp only [Function.comp_apply, if_pos hpe] at hpk
      exact hpk.symm ▸ rfl
    · left
      simp only [Function.comp_apply, if_neg hpe] at hpk
      exact hpk ▸ List.mem_map.mpr ⟨p, hp, rfl⟩
  · rw [if_neg hany, List.map_append] at hk2
    rcases List.mem_append.mp hk2 with h | h
    · exact Or.inl h
    · right
      simpa using h

theorem decodeInterfaceStatus_some_name (knownNames : List (String × String))
    (ifIndex statusCode : String) (p : String × String)
    (h : decodeInterfaceStatus knownNames ifIndex statusCode = some p) :
    pyLower p.1 ≠ "null0" := by
  unfold decodeInterfaceStatus at h
  by_cases hc : pyLower (lookupD knownNames ifIndex ("if" ++ ifIndex)) ≠ "null0"
  · rw [if_pos hc] at h
    obtain rfl : (lookupD knownNames ifIndex ("if" ++ ifIndex),
        lookupD INTERFACE_STATUS statusCode "unknown") = p := by
      simpa using h
    exact hc
  · rw [if_neg hc] at h
    simp at h

theorem buildInterfaceData_aux (knownNames : List (String × String)) :
    ∀ (rows acc : List (String × String)),
      (∀ k ∈ acc.map Prod.fst, pyLower k ≠ "null0") →
      ∀ k ∈ (rows.foldl
        (fun m r =>
          match decodeInterfaceStatus knownNames r.1 r.2 with
          | some p => assocSet m p.1 p.2
          | none => m) acc).map Prod.fst, pyLower k ≠ "null0"
  | [], acc, hacc => by simpa using hacc
  | r :: rows, acc, hacc => by
      rw [List.foldl_cons]
      refine buildInterfaceData_aux knownNames rows _ ?_
      cases hd : decodeInterfaceStatus knownNames r.1 r.2 with
      | none => exact hacc
      | some p =>
          intro k hk
          rcases assocSet_keys acc p.1 p.2 k hk with h | h
          · exact hacc k h
          · exact h ▸ decodeInterfaceStatus_some_name knownNames r.1 r.2 p hd

theorem decodeIpv6Binding_iso (L : List String) (h : stripIso L = L) :
    decodeIpv6Binding ("iso" :: L) = decodeIpv6Binding L := by
  simp only [decodeIpv6Binding]
  rw [show stripIso ("iso" :: L) = L from by simp [stripIso], h]

/-- C1 (counterexample): the round-trip law fails for the MAC
aa:ff:fe:dd:ee:ff. Its modified EUI-64 rendering A8-FF-FE-FF-FE-DD-EE-FF
contains, after the bit flip back, two FF-FE- occurrences; the replace at
NMtcpdump.py line 11 removes both, leaving the 4-octet string AA-DD-EE-FF
on which netaddr EUI raises AddrFormatError instead of returning the MAC. -/
theorem eui64_roundtrip_cex :
    eui64_to_mac (macToEui64IID 170 255 254 221 238 255) = none ∧
    eui64_to_mac (macToEui64IID 170 255 254 221 238 255) ≠
      some (euiRender [170, 255, 254, 221, 238, 255]) := by
  constructor
  · rfl
  · intro h
    rw [show eui64_to_mac (macToEui64IID 170 255 254 221 238 255) = none from rfl] at h
    exact Option.noConfusion h

/-- C1 (amended): for every MAC whose octet pairs (0,1), (1,2) and (3,4)
are not (FF, FE) — so that the inserted FF:FE marker is the only FF-FE-
occurrence the string replacement can see — and every IPv6 address whose
low 64 bits are the modified EUI-64 interface identifier built from that
MAC, eui64_to_mac returns exactly that MAC (in the netaddr rendering the
source returns). -/
theorem eui64_roundtrip_amended (m0 m1 m2 m3 m4 m5 X : Nat)
    (h0 : m0 < 256) (h1 : m1 < 256) (h2 : m2 < 256) (h3 : m3 < 256)
    (h4 : m4 < 256) (h5 : m5 < 256)
    (e1 : ¬(m0 = 255 ∧ m1 = 254)) (e2 : ¬(m1 = 255 ∧ m2 = 254))
    (e3 : ¬(m3 = 255 ∧ m4 = 254))
    (hX : X % 18446744073709551616 = macToEui64IID m0 m1 m2 m3 m4 m5) :
    eui64_to_mac X = some (euiRender [m0, m1, m2, m3, m4, m5]) := by
  have hxor : m0 ^^^ 2 < 256 := xor2_lt h0
  have hoct : natToOctets8 (macToEui64IID m0 m1 m2 m3 m4 m5) =
      [m0 ^^^ 2, m1, m2, 255, 254, m3, m4, m5] := by
    unfold macToEui64IID
    exact natToOctets8_of_bytes _ _ _ _ _ _ _ _ hxor h1 h2 (by omega) (by omega)
      h3 h4 h5
  unfold eui64_to_mac
  rw [hX, hoct]
  simp only [flipULBit]
  rw [Nat.xor_cancel_right, stripFFFE_marker m0 m1 m2 m3 m4 m5 e1 e2 e3]
  simp

/-- C1 (witness): the spec's own scenario. The address
2001:db8:1::a8bb:ccff:fedd:eeff has low 64 bits a8bb:ccff:fedd:eeff, the
modified EUI-64 identifier of the MAC aa:bb:cc:dd:ee:ff, and the codec
recovers that MAC. -/
theorem eui64_roundtrip_amended_w :
    0x20010db800010000a8bbccfffeddeeff % 18446744073709551616 =
      macToEui64IID 170 187 204 221 238 255 ∧
    eui64_to_mac 0x20010db800010000a8bbccfffeddeeff =
      some (euiRender [170, 187, 204, 221, 238, 255]) :=
  ⟨by decide,
   eui64_roundtrip_amended 170 187 204 221 238 255 _
     (by decide) (by decide) (by decide) (by decide) (by decide) (by decide)
     (by decide) (by decide) (by decide) (by decide)⟩

/-- C8 (counterexample): the claimed MalformedInputError for a missing
FF:FE marker never happens. The address :: has interface-identifier
octets 3-4 equal to 00 00, not FF FE, yet eui64_to_mac succeeds and
returns the whole 8-octet EUI-64 string. -/
theorem eui64_novalidation_cex :
    natToOctets8 (0 % 18446744073709551616) = [0, 0, 0, 0, 0, 0, 0, 0] ∧
    eui64_to_mac 0 = some "02-00-00-00-00-00-00-00" := by
  constructor
  · rfl
  · rfl

/-- C8 (amended): eui64_to_mac performs no marker validation. Whenever the
flipped octet sequence contains no replaceable FF-FE- occurrence at all —
in particular whenever octets 3-4 are not FF FE and no other adjacent
(FF, FE) pair with a successor octet exists — the call does not fail: it
returns the full 8-octet rendering unchanged. -/
theorem eui64_novalidation_amended (X : Nat)
    (h : noMarker (flipULBit (natToOctets8 (X % 18446744073709551616))) = true) :
    eui64_to_mac X =
      some (euiRender (flipULBit (natToOctets8 (X % 18446744073709551616)))) := by
  unfold eui64_to_mac
  rw [stripFFFE_id_of_noMarker _ h]
  have hlen : (flipULBit (natToOctets8 (X % 18446744073709551616))).length = 8 := by
    simp [natToOctets8, flipULBit]
  rw [if_pos (Or.inr hlen)]

/-- C8 (witness): the amended statement applied at the address ::. -/
theorem eui64_novalidation_amended_w :
    noMarker (flipULBit (natToOctets8 (0 % 18446744073709551616))) = true ∧
    eui64_to_mac 0 =
      some (euiRender (flipULBit (natToOctets8 (0 % 18446744073709551616)))) :=
  ⟨by decide, eui64_novalidation_amended 0 (by decide)⟩

/-- C10: eui64_to_mac depends only on the low 64 bits of its input; two
addresses congruent modulo 2^64 produce identical results, because the
very first step of the source masks with 0xFFFFFFFFFFFFFFFF. -/
theorem eui64_low64_only (X Y : Nat)
    (h : X % 18446744073709551616 = Y % 18446744073709551616) :
    eui64_to_mac X = eui64_to_mac Y := by
  unfold eui64_to_mac
  rw [h]

/-- C10 (witness): 2^64 and 0 share their low 64 bits and their results. -/
theorem eui64_low64_only_w :
    18446744073709551616 % 18446744073709551616 = 0 % 18446744073709551616 ∧
    eui64_to_mac 18446744073709551616 = eui64_to_mac 0 :=
  ⟨by decide, eui64_low64_only 18446744073709551616 0 (by decide)⟩

/-- C3 (counterexample): on an object identifier with fewer than 4
components the IPv4 decode does not fail with any error: the guard at
NMsnmp.py line 74 simply skips the row, so the result is a silent
no-result, not a MalformedOidError. -/
theorem decodeIpv4Binding_short_cex :
    decodeIpv4Binding ["1", "3"] = Except.ok none := rfl

/-- C3 (amended): decodeIpv4Binding never raises: with fewer than 4
components it silently produces no result (the row is skipped), and with
at least 4 components it succeeds with the joined last-four-components
string plus /24. -/
theorem decodeIpv4Binding_total_amended (parts : List String) :
    (parts.length < 4 → decodeIpv4Binding parts = Except.ok none) ∧
    (4 ≤ parts.length → decodeIpv4Binding parts =
      Except.ok (some (String.intercalate "."
        (parts.drop (parts.length - 4)) ++ "/24"))) := by
  constructor
  · intro h
    simp only [decodeIpv4Binding]
    rw [if_neg (by omega)]
  · intro h
    simp only [decodeIpv4Binding]
    rw [if_pos h]

/-- C3 (witness): the amended statement at a 5-component identifier. -/
theorem decodeIpv4Binding_total_amended_w :
    4 ≤ (["1", "2", "3", "4", "5"] : List String).length ∧
    decodeIpv4Binding ["1", "2", "3", "4", "5"] = Except.ok (some "2.3.4.5/24") :=
  ⟨by decide,
   ((decodeIpv4Binding_total_amended ["1", "2", "3", "4", "5"]).2 (by decide)).trans
     (by rfl)⟩

/-- C7: with at least 4 components the IPv4 decode returns the last four
components joined with dots and the fixed /24 suffix; in particular the
walked OID ending 198.51.1.1 decodes to 198.51.1.1/24. -/
theorem decodeIpv4Binding_last4 :
    (∀ (pre : List String) (a b c d : Nat),
      decodeIpv4Binding (pre ++ [toString a, toString b, toString c, toString d]) =
        Except.ok (some (String.intercalate "."
          [toString a, toString b, toString c, toString d] ++ "/24"))) ∧
    decodeIpv4Binding
        ["1", "3", "6", "1", "2", "1", "4", "20", "1", "1", "198", "51", "1", "1"] =
      Except.ok (some "198.51.1.1/24") := by
  constructor
  · intro pre a b c d
    simp only [decodeIpv4Binding]
    have hl : (pre ++ [toString a, toString b, toString c, toString d]).length =
        pre.length + 4 := by simp
    rw [if_pos (by omega)]
    have hdrop : (pre ++ [toString a, toString b, toString c, toString d]).drop
        ((pre ++ [toString a, toString b, toString c, toString d]).length - 4) =
        [toString a, toString b, toString c, toString d] := by
      rw [show (pre ++ [toString a, toString b, toString c, toString d]).length - 4 =
            pre.length from by omega]
      exact List.drop_left pre _
    rw [hdrop]
  · rfl

/-- C2: on a well-formed identifier made of a 9-component all-numeric
table-entry base, an ifIndex component, an addressType component and 16
address components that parse to the octet list A, decodeIpv6Binding
returns the colon-hex grouping of A with /64 appended, and prepending the
textual root label iso leaves the result unchanged. -/
theorem decodeIpv6Binding_embed (base : List String) (ifIdx aTyp : String)
    (addrStrs : List String) (A : List Nat)
    (hb : base.length = 9) (hnum : ∀ s ∈ base, (pyInt s).isSome = true)
    (hlen : addrStrs.length = 16) (hA : mapIntAll addrStrs = some A)
    (hoct : ∀ n ∈ A, n < 256) :
    decodeIpv6Binding (base ++ ifIdx :: aTyp :: addrStrs) =
      Except.ok (some (ipv6Colon A ++ "/64")) ∧
    decodeIpv6Binding ("iso" :: (base ++ ifIdx :: aTyp :: addrStrs)) =
      decodeIpv6Binding (base ++ ifIdx :: aTyp :: addrStrs) := by
  obtain ⟨b, bs, rfl⟩ : ∃ b bs, base = b :: bs := by
    cases base with
    | nil => simp at hb
    | cons b bs => exact ⟨b, bs, rfl⟩
  have hbs : bs.length = 8 := by
    simp only [List.length_cons] at hb
    omega
  have hbne : b ≠ "iso" := by
    intro hbe
    have hi := hnum b (by simp)
    rw [hbe] at hi
    exact absurd hi (by decide)
  have hstrip : stripIso ((b :: bs) ++ ifIdx :: aTyp :: addrStrs) =
      (b :: bs) ++ ifIdx :: aTyp :: addrStrs := by
    simp only [List.cons_append, stripIso]
    rw [if_neg hbne]
  have hlenall : ((b :: bs) ++ ifIdx :: aTyp :: addrStrs).length = 27 := by
    simp only [List.length_append, List.length_cons, hbs, hlen]
  have hdrop : ((b :: bs) ++ ifIdx :: aTyp :: addrStrs).drop 11 = addrStrs := by
    rw [show (b :: bs) ++ ifIdx :: aTyp :: addrStrs =
          ((b :: bs) ++ [ifIdx, aTyp]) ++ addrStrs from by simp,
        show (11 : Nat) = ((b :: bs) ++ [ifIdx, aTyp]).length from by
          simp [List.length_append, hbs],
        List.drop_left]
  have htake : addrStrs.take 16 = addrStrs := by
    rw [← hlen]
    exact List.take_length addrStrs
  have hmain : decodeIpv6Binding ((b :: bs) ++ ifIdx :: aTyp :: addrStrs) =
      Except.ok (some (ipv6Colon A ++ "/64")) := by
    simp only [decodeIpv6Binding]
    rw [hstrip, hdrop, htake, if_pos (by omega), if_pos hlen, hA]
  exact ⟨hmain, decodeIpv6Binding_iso _ hstrip⟩

/-- C2 (witness): the spec's scenario row. Base 1.3.6.1.2.1.4.34.1,
ifIndex 1, addressType 2, address octets
32.1.13.184.0.1.0.0.0.0.0.0.0.0.0.1 decode to
2001:0db8:0001:0000:0000:0000:0000:0001/64. -/
theorem decodeIpv6Binding_embed_w :
    decodeIpv6Binding
        ["1", "3", "6", "1", "2", "1", "4", "34", "1", "1", "2", "32", "1",
         "13", "184", "0", "1", "0", "0", "0", "0", "0", "0", "0", "0", "0",
         "1"] =
      Except.ok (some "2001:0db8:0001:0000:0000:0000:0000:0001/64") :=
  ((decodeIpv6Binding_embed ["1", "3", "6", "1", "2", "1", "4", "34", "1"]
      "1" "2"
      ["32", "1", "13", "184", "0", "1", "0", "0", "0", "0", "0", "0", "0",
       "0", "0", "1"]
      [32, 1, 13, 184, 0, 1, 0, 0, 0, 0, 0, 0, 0, 0, 0, 1]
      (by decide) (by decide) (by decide) (by decide) (by decide)).1).trans
    (by rfl)

/-- C4: a row whose identifier, after root-label stripping, has fewer than
the 27 required components is silently skipped (Except.ok none, no error),
and the decode can only fail when one of the 16 sliced address components
is non-numeric (the int() conversion at NMsnmp.py line 102). -/
theorem decodeIpv6Binding_short_skip (parts : List String) :
    ((stripIso parts).length < 27 → decodeIpv6Binding parts = Except.ok none) ∧
    (decodeIpv6Binding parts = Except.error () →
      ∃ s ∈ ((stripIso parts).drop 11).take 16, pyInt s = none) := by
  constructor
  · intro h
    simp only [decodeIpv6Binding]
    rw [if_neg (by omega)]
  · intro h
    simp only [decodeIpv6Binding] at h
    by_cases h27 : 27 ≤ (stripIso parts).length
    · rw [if_pos h27] at h
      by_cases h16 : (((stripIso parts).drop 11).take 16).length = 16
      · rw [if_pos h16] at h
        cases hm : mapIntAll (((stripIso parts).drop 11).take 16) with
        | some ns => rw [hm] at h; simp at h
        | none => exact mapIntAll_none _ hm
      · rw [if_neg h16] at h
        simp at h
    · rw [if_neg h27] at h
      simp at h

/-- C4 (witness): a one-component identifier is skipped without error. -/
theorem decodeIpv6Binding_short_skip_w :
    (stripIso ["1"]).length < 27 ∧ decodeIpv6Binding ["1"] = Except.ok none :=
  ⟨by decide, (decodeIpv6Binding_short_skip ["1"]).1 (by decide)⟩

/-- C5: the status decode is total and never fails: a row is dropped only
for the case-insensitive name Null0 (first conjunct, both directions); any
status code outside 1-7 yields the label unknown; a missing interface name
yields the synthesized name if<index>; and no key of the built
interface_data mapping ever lowercases to null0. -/
theorem decodeInterfaceStatus_total (knownNames : List (String × String))
    (ifIndex statusCode : String) :
    (decodeInterfaceStatus knownNames ifIndex statusCode = none ↔
      pyLower (lookupD knownNames ifIndex ("if" ++ ifIndex)) = "null0") ∧
    (statusCode ∉ (["1", "2", "3", "4", "5", "6", "7"] : List String) →
      ∀ p ∈ decodeInterfaceStatus knownNames ifIndex statusCode,
        p.2 = "unknown") ∧
    (ifIndex ∉ knownNames.map Prod.fst →
      ∀ p ∈ decodeInterfaceStatus knownNames ifIndex statusCode,
        p.1 = "if" ++ ifIndex) ∧
    (∀ rows : List (String × String),
      ∀ k ∈ (buildInterfaceData knownNames rows).map Prod.fst,
        pyLower k ≠ "null0") := by
  refine ⟨?_, ?_, ?_, ?_⟩
  · by_cases hc : pyLower (lookupD knownNames ifIndex ("if" ++ ifIndex)) = "null0"
    · simp [decodeInterfaceStatus, hc]
    · simp [decodeInterfaceStatus, hc]
  · intro hs p hp
    have hu : lookupD INTERFACE_STATUS statusCode "unknown" = "unknown" := by
      apply lookupD_not_mem
      simpa [INTERFACE_STATUS] using hs
    unfold decodeInterfaceStatus at hp
    by_cases hc : pyLower (lookupD knownNames ifIndex ("if" ++ ifIndex)) ≠ "null0"
    · rw [if_pos hc] at hp
      simp only [Option.mem_def, Option.some.injEq] at hp
      rw [← hp]
      exact hu
    · rw [if_neg hc] at hp
      simp at hp
  · intro hm p hp
    have hn : lookupD knownNames ifIndex ("if" ++ ifIndex) = "if" ++ ifIndex :=
      lookupD_not_mem knownNames ifIndex _ hm
    unfold decodeInterfaceStatus at hp
    by_cases hc : pyLower (lookupD knownNames ifIndex ("if" ++ ifIndex)) ≠ "null0"
    · rw [if_pos hc] at hp
      simp only [Option.mem_def, Option.some.injEq] at hp
      rw [← hp]
      exact hn
    · rw [if_neg hc] at hp
      simp at hp
  · intro rows k hk
    exact buildInterfaceData_aux knownNames rows [] (by simp) k hk

/-- C5 (witness): an out-of-range code 9 with an empty name table yields
the pair (if3, unknown). -/
theorem decodeInterfaceStatus_total_w :
    ("9" ∉ (["1", "2", "3", "4", "5", "6", "7"] : List String)) ∧
    (("if3", "unknown") : String × String).2 = "unknown" :=
  ⟨by decide,
   (decodeInterfaceStatus_total [] "3" "9").2.1 (by decide) ("if3", "unknown")
     (Option.mem_def.mpr rfl)⟩

/-- C6: the selection is a pure function of the input set: permuting the
traversal order of the observed addresses leaves the result unchanged, and
a successful result pairs name i with position i of the sorted filtered
list, truncated to the shorter of the two lists. -/
theorem selectAndNameAddresses_det (macOf : String → Option String)
    (filt : String) (names : List String) (l1 l2 : List String)
    (hperm : l1.Perm l2) :
    selectAndNameAddresses macOf filt names l1 =
      selectAndNameAddresses macOf filt names l2 ∧
    (∀ ms ys, selectAndNameAddresses macOf filt names l1 = some (ms, ys) →
      ys = names.zip (sortStrings (l1.filter (fun a => strContains a filt))) ∧
      ys.length = min names.length
        (l1.filter (fun a => strContains a filt)).length) := by
  constructor
  · unfold selectAndNameAddresses
    rw [sortStrings_eq_of_perm (hperm.filter _)]
  · intro ms ys h
    unfold selectAndNameAddresses at h
    obtain ⟨hys, _⟩ := assignLoop_inv macOf _ ms ys h
    refine ⟨hys, ?_⟩
    rw [hys, List.length_zip,
      (sortStrings_perm (l1.filter (fun a => strContains a filt))).length_eq,
      inf_eq_min]

/-- C6 (witness): two traversal orders of the same two-address set give
identical results. -/
theorem selectAndNameAddresses_det_w :
    (["b", "a"] : List String).Perm ["a", "b"] ∧
    selectAndNameAddresses (fun _ => some "00") "" ["n1"] ["b", "a"] =
      selectAndNameAddresses (fun _ => some "00") "" ["n1"] ["a", "b"] :=
  ⟨by decide,
   (selectAndNameAddresses_det (fun _ => some "00") "" ["n1"] ["b", "a"]
     ["a", "b"] (by decide)).1⟩

/-- C9: whenever extract_mac_addresses returns, the MAC mapping and the
IPv6 mapping carry exactly the same keys in the same order, every key is
one of R2-F0/0 and R3-F0/0, and when both names are assigned R2-F0/0
receives the lexicographically smaller of the two assigned addresses. -/
theorem extract_mac_addresses_inv (macOf : String → Option String)
    (src : List String) (hnd : src.Nodup) (ms ys : List (String × String))
    (h : extract_mac_addresses macOf src = some (ms, ys)) :
    ms.map Prod.fst = ys.map Prod.fst ∧
    (∀ k ∈ ms.map Prod.fst, k ∈ (["R2-F0/0", "R3-F0/0"] : List String)) ∧
    (∀ a0 a1, ys = [("R2-F0/0", a0), ("R3-F0/0", a1)] →
      pyStrLe a0 a1 ∧ a0 ≠ a1) := by
  unfold extract_mac_addresses selectAndNameAddresses at h
  obtain ⟨hys, hms⟩ := assignLoop_inv macOf _ ms ys h
  refine ⟨?_, ?_, ?_⟩
  · rw [hms, hys]
  · intro k hk
    rw [hms] at hk
    obtain ⟨⟨x, y⟩, hp, hpk⟩ := List.mem_map.mp hk
    exact hpk ▸ (List.of_mem_zip hp).1
  · intro a0 a1 hys2
    have hz := hys.symm.trans hys2
    have hsorted :=
      sortStrings_sorted (src.filter (fun a => strContains a "2001:db8:1:"))
    have hnodup :
        (sortStrings (src.filter (fun a => strContains a "2001:db8:1:"))).Nodup :=
      (sortStrings_perm _).nodup_iff.mpr (hnd.filter _)
    cases hLc : sortStrings (src.filter (fun a => strContains a "2001:db8:1:")) with
    | nil => rw [hLc] at hz; simp at hz
    | cons x t =>
        cases t with
        | nil => rw [hLc] at hz; simp at hz
        | cons y t2 =>
            rw [hLc] at hz hsorted hnodup
            rw [show (["R2-F0/0", "R3-F0/0"] : List String).zip (x :: y :: t2) =
                  [("R2-F0/0", x), ("R3-F0/0", y)] from rfl] at hz
            simp only [List.cons.injEq, Prod.mk.injEq, true_and, and_true] at hz
            obtain ⟨hx, hy⟩ := hz
            subst hx
            subst hy
            constructor
            · exact (List.pairwise_cons.mp hsorted).1 y (by simp)
            · intro he
              exact (List.nodup_cons.mp hnodup).1 (he ▸ List.mem_cons_self y t2)

/-- C9 (witness): two observed addresses in reverse order; the smaller one
is assigned to R2-F0/0. -/
theorem extract_mac_addresses_inv_w :
    pyStrLe "2001:db8:1:a" "2001:db8:1:b" ∧
    ("2001:db8:1:a" : String) ≠ "2001:db8:1:b" :=
  (extract_mac_addresses_inv (fun _ => some "00")
    ["2001:db8:1:b", "2001:db8:1:a"] (by decide)
    [("R2-F0/0", "00"), ("R3-F0/0", "00")]
    [("R2-F0/0", "2001:db8:1:a"), ("R3-F0/0", "2001:db8:1:b")]
    (by rfl)).2.2 "2001:db8:1:a" "2001:db8:1:b" rfl
